import Mathlib

/-!
# wolrepeater: packet validation and repeating logic

A shallow embedding of `wolrepeater.go` (the `Repeater`, its `Listen` loop,
`verifyWOLHardwareAddress`, `genWOLPacket`, `sendWOL`) and of the pre-flight
part of `cmd/wolrepeater/main.go` (`run`).

Modelling conventions:

* a Go `[]byte` is a `List Byte`, `Byte = Fin 256`; `bytes.Equal` is list equality
  (a nil slice and an empty slice are equal, as in Go);
* a slice expression `b[lo:hi]` that would be out of range is a run-time panic,
  modelled by `none`;
* the network is an input: every loop iteration is given the result of
  `conn.Read` and the results `net.DialUDP` / `conn.Write` would give if a
  forward were attempted during that iteration;
* what the code does to the outside world is recorded as a list of `Event`s.
-/

namespace Wolrepeater

/-! ## Bytes, slices and errors -/

/-- One Go `byte`. -/
abbrev Byte := Fin 256

/-- Go `net.HardwareAddr`: a byte slice of any length. -/
abbrev HardwareAddr := List Byte

/-- Go `net.IP`: `none` is the nil IP. -/
abbrev IP := Option (List Byte)

/-- Go `error` values: an error of the operating system or a library, or an
error wrapped by `fmt.Errorf("<pfx>%w", inner)`. -/
inductive GoError where
  | base (msg : String)
  | wrap (pfx : String) (inner : GoError)
  deriving DecidableEq, Repr

/-- Slice expression `b[lo:hi]` on a slice whose length equals its capacity;
`none` is the out-of-range panic. -/
def slice (b : List Byte) (lo hi : Nat) : Option (List Byte) :=
  if lo ≤ hi ∧ hi ≤ b.length then some ((b.drop lo).take (hi - lo)) else none

/-- Slice expression `b[lo:]`. -/
def sliceFrom (b : List Byte) (lo : Nat) : Option (List Byte) :=
  slice b lo b.length

/-! ## Constants of `wolrepeater.go` -/

def wolPacketLen : Nat := 102

def wolMACRepeat : Nat := 16

def macLen : Nat := 6

def magicHeader : List Byte := [255, 255, 255, 255, 255, 255]

/-- Size of the receive buffer, `make([]byte, 1024)`. -/
def bufLen : Nat := 1024

/-- The receive buffer as `make([]byte, 1024)` leaves it. -/
def freshBuf : List Byte := List.replicate bufLen 0

/-! ## Logging -/

def LevelDebug : Int := -4

def LevelInfo : Int := 0

def LevelWarn : Int := 4

/-- Value of a structured log attribute, before formatting. -/
inductive AttrVal where
  | int (n : Int)
  | bytes (b : List Byte)
  | ip (a : IP)
  | mac (m : HardwareAddr)
  | err (e : GoError)
  deriving DecidableEq, Repr

/-- What the program does to the outside world. -/
inductive Event where
  | log (level : Int) (msg : String) (attrs : List (String × AttrVal))
  | sendWOLCall
  | dialUDP (addr : IP) (port : Int)
  | connWrite (pkt : List Byte)
  | connClose
  deriving DecidableEq, Repr

/-- A `*slog.Logger`: its handler's `Enabled` method, by level. -/
structure Logger where
  Enabled : Int → Bool

/-- Go `Logger.Debug` / `Info` / `Warn`: the record is emitted when the
handler is enabled for the level. -/
def Logger.emit (l : Logger) (level : Int) (msg : String)
    (attrs : List (String × AttrVal)) : List Event :=
  if l.Enabled level then [Event.log level msg attrs] else []

def Logger.Debug (l : Logger) (msg : String) (attrs : List (String × AttrVal)) : List Event :=
  l.emit LevelDebug msg attrs

def Logger.Info (l : Logger) (msg : String) (attrs : List (String × AttrVal)) : List Event :=
  l.emit LevelInfo msg attrs

def Logger.Warn (l : Logger) (msg : String) (attrs : List (String × AttrVal)) : List Event :=
  l.emit LevelWarn msg attrs

/-- Handler built by `slog.NewJSONHandler(_, &slog.HandlerOptions{Level: min})`. -/
def levelLogger (min : Int) : Logger :=
  ⟨fun l => decide (min ≤ l)⟩

/-! ## The Repeater -/

structure Repeater where
  ListenAddr : IP
  ListenPort : Int
  ListenHardwareAddr : HardwareAddr
  DestAddr : IP
  DestPort : Int
  DestHardwareAddr : HardwareAddr
  Logger : Logger

/-- The `for i := range wolMACRepeat` loop of `verifyWOLHardwareAddress`, at
index `i` with `k` iterations left. -/
def verifyLoop (buf : List Byte) (mac : HardwareAddr) : Nat → Nat → Option Bool
  | _, 0 => some true
  | i, k + 1 =>
    match slice buf (macLen * i) (macLen * (i + 1)) with
    | none => none
    | some blk => if blk = mac then verifyLoop buf mac (i + 1) k else some false

def verifyWOLHardwareAddress (buf : List Byte) (mac : HardwareAddr) : Option Bool :=
  verifyLoop buf mac 0 wolMACRepeat

/-- The `for range wolMACRepeat` loop of `genWOLPacket` with `k` iterations left. -/
def genLoop (mac : HardwareAddr) : List Byte → Nat → List Byte
  | pkt, 0 => pkt
  | pkt, k + 1 => genLoop mac (pkt ++ mac) k

def genWOLPacket (mac : HardwareAddr) : List Byte :=
  genLoop mac ([] ++ magicHeader) wolMACRepeat

/-- What the network answers to one forward: the error of `net.DialUDP` and of
`conn.Write`, `none` for success. -/
structure SendEnv where
  dial : Option GoError
  write : Option GoError

/-- Method `sendWOL`: the returned error (`none` is nil) and the events. -/
def Repeater.sendWOL (r : Repeater) (env : SendEnv) : Option GoError × List Event :=
  match env.dial with
  | some e => (some (.wrap "could not open UDP conn: " e), [.dialUDP r.DestAddr r.DestPort])
  | none =>
    let pkt := genWOLPacket r.DestHardwareAddr
    match env.write with
    | some e =>
      (some (.wrap "could not send packet: " e),
        [.dialUDP r.DestAddr r.DestPort, .connWrite pkt, .connClose])
    | none => (none, [.dialUDP r.DestAddr r.DestPort, .connWrite pkt, .connClose])

/-- Go `conn.Read(buf)` on a UDP socket delivering datagram `d`: the first
`n = min (len d) (len buf)` bytes of `buf` are overwritten, the rest of `buf`
keeps its old content. -/
def connRead (buf d : List Byte) : Nat × List Byte :=
  let n := min d.length buf.length
  (n, d.take n ++ buf.drop n)

/-- Inputs of one iteration of the receive loop. -/
structure IterEnv where
  read : Except GoError (List Byte)
  send : SendEnv

/-- Outcome of one iteration of the `for` loop of `Listen`. -/
inductive IterResult where
  | ret (err : GoError)
  | cont (buf : List Byte) (events : List Event)
  | panic

/-- Body of the `for` loop of `Listen`, on receive buffer `buf`. -/
def Repeater.listenIter (r : Repeater) (buf : List Byte) (env : IterEnv) : IterResult :=
  match env.read with
  | .error e => .ret (.wrap "could not read udp packet: " e)
  | .ok d =>
    let n := (connRead buf d).1
    let buf := (connRead buf d).2
    if n ≠ wolPacketLen then
      .cont buf (r.Logger.Debug "received non-WOL packet" [("invalid-packet-length", .int n)])
    else
      match slice buf 0 magicHeader.length with
      | none => .panic
      | some hdr =>
        if hdr ≠ magicHeader then
          .cont buf (r.Logger.Debug "received non-WOL packet" [("invalid-header", .bytes hdr)])
        else
          match slice buf magicHeader.length (magicHeader.length + macLen) with
          | none => .panic
          | some pktHardwareAddr =>
            if pktHardwareAddr ≠ r.ListenHardwareAddr then
              if r.Logger.Enabled LevelDebug then
                match sliceFrom buf magicHeader.length with
                | none => .panic
                | some rest =>
                  match verifyWOLHardwareAddress rest pktHardwareAddr with
                  | none => .panic
                  | some true =>
                    .cont buf (r.Logger.Debug "received WOL packet for another MAC address"
                      [("mac-address", .mac pktHardwareAddr)])
                  | some false => .cont buf (r.Logger.Debug "received invalid WOL packet" [])
              else .cont buf []
            else
              match sliceFrom buf magicHeader.length with
              | none => .panic
              | some rest =>
                match verifyWOLHardwareAddress rest r.ListenHardwareAddr with
                | none => .panic
                | some false =>
                  .cont buf (r.Logger.Debug "received invalid WOL packet: incomplete match" [])
                | some true =>
                  let received := r.Logger.Info "WOL packet received"
                    [("mac-address", .mac r.ListenHardwareAddr)]
                  match r.sendWOL env.send with
                  | (some err, evs) =>
                    .cont buf (received ++ [.sendWOLCall] ++ evs ++
                      r.Logger.Warn "sending WOL packet failed"
                        [("dest-addr", .ip r.DestAddr), ("dest-port", .int r.DestPort),
                         ("dest-mac", .mac r.DestHardwareAddr), ("send-error", .err err)])
                  | (none, evs) =>
                    .cont buf (received ++ [.sendWOLCall] ++ evs ++
                      r.Logger.Info "WOL packet sent"
                        [("dest-addr", .ip r.DestAddr), ("dest-port", .int r.DestPort),
                         ("dest-mac", .mac r.DestHardwareAddr)])

/-- State of a call of `Listen` after a finite prefix of the network's inputs. -/
inductive ListenResult where
  | returned (err : GoError) (trace : List Event)
  | running (buf : List Byte) (trace : List Event)
  | panicked (trace : List Event)

def ListenResult.prepend (evs : List Event) : ListenResult → ListenResult
  | .returned e t => .returned e (evs ++ t)
  | .running b t => .running b (evs ++ t)
  | .panicked t => .panicked (evs ++ t)

/-- The `for` loop of `Listen` run on the inputs `envs`; `running` means that
the loop is blocked in `conn.Read`, waiting for the next input. -/
def Repeater.listenLoop (r : Repeater) : List Byte → List IterEnv → ListenResult
  | buf, [] => .running buf []
  | buf, env :: rest =>
    match r.listenIter buf env with
    | .ret e => .returned e [.connClose]
    | .panic => .panicked [.connClose]
    | .cont buf1 evs => (r.listenLoop buf1 rest).prepend evs

/-- Method `Listen`: `listenErr` is the error of `net.ListenUDP` (`none` is success). -/
def Repeater.Listen (r : Repeater) (listenErr : Option GoError) (envs : List IterEnv) :
    ListenResult :=
  let start := r.Logger.Info "starting listener"
    [("listen-addr", .ip r.ListenAddr), ("listen-port", .int r.ListenPort),
     ("listen-mac", .mac r.ListenHardwareAddr)]
  match listenErr with
  | some e => .returned (.wrap "could not open udp listener: " e) start
  | none => (r.listenLoop freshBuf envs).prepend start

/-- Number of calls of `sendWOL` in a trace. -/
def sendCalls (t : List Event) : Nat :=
  t.count .sendWOLCall

/-- The packets handed to `conn.Write` in a trace, in order. -/
def written : List Event → List (List Byte)
  | [] => []
  | .connWrite p :: t => p :: written t
  | _ :: t => written t

/-- Events of the forward and of the log record that follows it. -/
def forwardEvents (r : Repeater) (s : SendEnv) : List Event :=
  match r.sendWOL s with
  | (some err, evs) =>
    evs ++ r.Logger.Warn "sending WOL packet failed"
      [("dest-addr", .ip r.DestAddr), ("dest-port", .int r.DestPort),
       ("dest-mac", .mac r.DestHardwareAddr), ("send-error", .err err)]
  | (none, evs) =>
    evs ++ r.Logger.Info "WOL packet sent"
      [("dest-addr", .ip r.DestAddr), ("dest-port", .int r.DestPort),
       ("dest-mac", .mac r.DestHardwareAddr)]

/-! ## `cmd/wolrepeater/main.go` -/

/-- A Go `*int`: the address of an `int` variable. -/
structure IntPtr where
  addr : Nat
  deriving DecidableEq, Repr

/-- The `int` variables the `flag` package has allocated, by address. -/
structure FlagVars where
  ints : List Int

/-- Go `flag.Int`: allocates a new `int` variable and returns its address;
`value` is what the variable holds once `flag.Parse()` has run (the value
given on the command line, else the default). -/
def FlagVars.newInt (fs : FlagVars) (value : Int) : IntPtr × FlagVars :=
  (⟨fs.ints.length⟩, ⟨fs.ints ++ [value]⟩)

/-- Dereference `*p`. -/
def FlagVars.load (fs : FlagVars) (p : IntPtr) : Int :=
  fs.ints.getD p.addr 0

/-- The command line after tokenising: the value given for each flag, if any. -/
structure CmdLine where
  listenAddr : Option String
  listenPort : Option Int
  listenMAC : Option String
  destAddr : Option String
  destPort : Option Int
  destMAC : Option String
  logFile : Option String
  logLevel : Option String

/-- The library functions `run` calls: `net.ParseIP` (`none` is the nil IP),
`net.ParseMAC`, `slog.Level.UnmarshalText`, `os.OpenFile` (its error) and
`net.IP.Equal`. -/
structure Lib where
  ParseIP : String → IP
  ParseMAC : String → Except GoError HardwareAddr
  UnmarshalLevel : String → Except GoError Int
  OpenFile : String → Option GoError
  IPEqual : IP → IP → Bool

/-- The errors `run` returns itself, one for each `return` with an error. -/
inductive RunError where
  | parseListenAddr (s : String)
  | listenPortZero
  | parseListenMAC (s : String) (e : GoError)
  | listenMACRequired
  | parseDestAddr (s : String)
  | destAddrRequired
  | destPortZero
  | parseDestMAC (s : String) (e : GoError)
  | parseLogLevel (s : String) (e : GoError)
  | openLogFile (s : String) (e : GoError)
  | loopbackAll (listenPort : IntPtr) (destAddr : IP) (destPort : IntPtr)
  | loopbackAddr (listenAddr : IP) (listenPort : IntPtr) (destAddr : IP) (destPort : IntPtr)
  deriving DecidableEq, Repr

/-- The two errors of the loopback sanity check. -/
def RunError.isLoopback : RunError → Bool
  | .loopbackAll _ _ _ => true
  | .loopbackAddr _ _ _ _ => true
  | _ => false

/-- Function `run` of `main.go` up to its last statement: `.error e` when it
returns `e` before the repeater exists, `.ok r` when it builds the repeater
`r` and returns `r.Listen()`. -/
def run (lib : Lib) (cmd : CmdLine) : Except RunError Repeater := do
  -- parse flags
  let listenAddrStr := cmd.listenAddr.getD ""
  let (listenPort, fs) := FlagVars.newInt ⟨[]⟩ (cmd.listenPort.getD 9)
  let listenMACStr := cmd.listenMAC.getD ""
  let destAddrStr := cmd.destAddr.getD ""
  let (destPort, fs) := fs.newInt (cmd.destPort.getD 9)
  let destMACStr := cmd.destMAC.getD ""
  let logFileStr := cmd.logFile.getD "-"
  let logLevelStr := cmd.logLevel.getD "info"
  -- parse and validate flag values
  let listenAddr : IP ←
    (if listenAddrStr ≠ "" then
      match lib.ParseIP listenAddrStr with
      | none => throw (.parseListenAddr listenAddrStr)
      | some a => pure (some a)
    else pure none)
  let _ ← (if fs.load listenPort = 0 then throw RunError.listenPortZero else pure ())
  let listenMAC : HardwareAddr ←
    (if listenMACStr ≠ "" then
      match lib.ParseMAC listenMACStr with
      | .error e => throw (.parseListenMAC listenMACStr e)
      | .ok m => pure m
    else throw .listenMACRequired)
  let destAddr : IP ←
    (if destAddrStr ≠ "" then
      match lib.ParseIP destAddrStr with
      | none => throw (.parseDestAddr destAddrStr)
      | some a => pure (some a)
    else throw .destAddrRequired)
  let _ ← (if fs.load destPort = 0 then throw RunError.destPortZero else pure ())
  let destMAC : HardwareAddr ←
    (if destMACStr ≠ "" then
      match lib.ParseMAC destMACStr with
      | .error e => throw (.parseDestMAC destMACStr e)
      | .ok m => pure m
    else pure listenMAC)
  let logLevel : Int ←
    (match lib.UnmarshalLevel logLevelStr with
    | .error e => throw (.parseLogLevel logLevelStr e)
    | .ok l => pure l)
  -- open log file
  let _ ←
    (if logFileStr ≠ "-" then
      match lib.OpenFile logFileStr with
      | some e => throw (.openLogFile logFileStr e)
      | none => pure ()
    else pure ())
  -- sanity checks to prevent loopbacks
  let _ ←
    (if listenMAC = destMAC then
      if listenAddr = none ∧ listenPort = destPort then
        throw (.loopbackAll listenPort destAddr destPort)
      else if lib.IPEqual listenAddr destAddr ∧ listenPort = destPort then
        throw (.loopbackAddr listenAddr listenPort destAddr destPort)
      else pure ()
    else pure ())
  -- create and run repeater
  pure
    { ListenAddr := listenAddr, ListenPort := fs.load listenPort,
      ListenHardwareAddr := listenMAC, DestAddr := destAddr, DestPort := fs.load destPort,
      DestHardwareAddr := destMAC, Logger := levelLogger logLevel }

/-- Whether a result of `run` is one of the two loopback errors. -/
def loopbackReported : Except RunError Repeater → Bool
  | .error e => e.isLoopback
  | .ok _ => false

/-! ## Sample configuration -/

/-- Watch address `AA:BB:CC:DD:EE:FF`. -/
def sampleWatch : HardwareAddr := [0xAA, 0xBB, 0xCC, 0xDD, 0xEE, 0xFF]

/-- Destination address `11:22:33:44:55:66`. -/
def sampleDest : HardwareAddr := [0x11, 0x22, 0x33, 0x44, 0x55, 0x66]

/-- A repeater watching `sampleWatch`, forwarding for `sampleDest`, with debug logging on. -/
def sampleRepeater : Repeater :=
  { ListenAddr := none, ListenPort := 9, ListenHardwareAddr := sampleWatch,
    DestAddr := some [10, 0, 0, 1], DestPort := 9, DestHardwareAddr := sampleDest,
    Logger := levelLogger LevelDebug }

/-- A magic packet carrying 16 copies of `mac`, written out by hand. -/
def magicPacketFor (mac : HardwareAddr) : List Byte :=
  [255, 255, 255, 255, 255, 255] ++ mac ++ mac ++ mac ++ mac ++ mac ++ mac ++ mac ++ mac
    ++ mac ++ mac ++ mac ++ mac ++ mac ++ mac ++ mac ++ mac

/-- A network on which every forward succeeds. -/
def sendOk : SendEnv := ⟨none, none⟩

/-- IP address `10.0.0.1` as `net.ParseIP` returns it (16-byte form). -/
def ip10001 : List Byte := [0, 0, 0, 0, 0, 0, 0, 0, 0, 0, 255, 255, 10, 0, 0, 1]

/-- Library behaviour on the strings of the sample command lines. -/
def sampleLib : Lib :=
  { ParseIP := fun s => if s = "10.0.0.1" then some ip10001 else none,
    ParseMAC := fun s =>
      if s = "aa:bb:cc:dd:ee:ff" then .ok sampleWatch else .error (.base "invalid MAC address"),
    UnmarshalLevel := fun s =>
      if s = "info" then .ok LevelInfo else if s = "debug" then .ok LevelDebug
      else .error (.base "slog: level string: unknown name"),
    OpenFile := fun _ => none,
    IPEqual := fun a b => decide (a = b) }

/-- Command line `-listen-mac aa:bb:cc:dd:ee:ff -dest-addr 10.0.0.1`. -/
def loopCmdAll : CmdLine :=
  { listenAddr := none, listenPort := none, listenMAC := some "aa:bb:cc:dd:ee:ff",
    destAddr := some "10.0.0.1", destPort := none, destMAC := none, logFile := none,
    logLevel := none }

/-- Command line `-listen-addr 10.0.0.1 -listen-mac aa:bb:cc:dd:ee:ff -dest-addr 10.0.0.1`. -/
def loopCmdAddr : CmdLine :=
  { loopCmdAll with listenAddr := some "10.0.0.1" }

/-! # Theorems -/

/-! ## Slices of the receive buffer -/

theorem slice_eq_some {b : List Byte} {lo hi : Nat} (h1 : lo ≤ hi) (h2 : hi ≤ b.length) :
    slice b lo hi = some ((b.drop lo).take (hi - lo)) := by
  simp [slice, h1, h2]

theorem connRead_wol (buf d : List Byte) (hb : buf.length = bufLen) (hd : d.length = 102) :
    connRead buf d = (102, d ++ buf.drop 102) := by
  have hmin : min d.length buf.length = 102 := by
    rw [hb, hd]; decide
  simp only [connRead, hmin]
  rw [List.take_of_length_le (by omega)]

theorem connRead_length (buf d : List Byte) : (connRead buf d).2.length = buf.length := by
  simp only [connRead, List.length_append, List.length_take, List.length_drop]
  omega

theorem connRead_fst_ne (buf d : List Byte) (hb : buf.length = bufLen) (hd : d.length ≠ 102) :
    (connRead buf d).1 ≠ 102 := by
  simp only [connRead, hb, bufLen]
  omega

/-- Block `j` of the buffer after the header is block `j` of the datagram. -/
theorem block_of_append (d tl : List Byte) (j : Nat) (hj : 6 + 6 * j + 6 ≤ d.length) :
    ((d.drop 6 ++ tl).drop (6 * j)).take 6 = (d.drop (6 + 6 * j)).take 6 := by
  rw [List.drop_append_of_le_length (by simp; omega),
    List.take_append_of_le_length (by simp; omega), List.drop_drop]

/-! ## `verifyWOLHardwareAddress` -/

theorem verifyLoop_eq (buf : List Byte) (mac : HardwareAddr) :
    ∀ k i, macLen * (i + k) ≤ buf.length →
      verifyLoop buf mac i k
        = some (decide (∀ j, j < k → (buf.drop (6 * (i + j))).take 6 = mac)) := by
  intro k
  induction k with
  | zero => intro i _; simp [verifyLoop]
  | succ k ih =>
    intro i h
    simp only [macLen] at h ih
    have hs : slice buf (macLen * i) (macLen * (i + 1))
        = some ((buf.drop (6 * i)).take 6) := by
      rw [slice_eq_some (by simp only [macLen]; omega) (by simp only [macLen]; omega)]
      simp only [macLen]
      congr 2
      omega
    simp only [verifyLoop, hs]
    by_cases hb : (buf.drop (6 * i)).take 6 = mac
    · rw [if_pos hb, ih (i + 1) (by omega)]
      congr 1
      apply decide_eq_decide.mpr
      constructor
      · intro hall j hj
        cases j with
        | zero => simpa using hb
        | succ j =>
          have := hall j (by omega)
          rwa [show i + 1 + j = i + (j + 1) by omega] at this
      · intro hall j hj
        have := hall (j + 1) (by omega)
        rwa [show i + (j + 1) = i + 1 + j by omega] at this
    · rw [if_neg hb]
      congr 1
      symm
      apply decide_eq_false
      intro hall
      exact hb (by simpa using hall 0 (by omega))

/-- On a buffer holding at least 16 blocks `verifyWOLHardwareAddress` does not
panic and decides whether each of the 16 blocks equals `mac`. -/
theorem verifyWOLHardwareAddress_eq (buf : List Byte) (mac : HardwareAddr)
    (h : 96 ≤ buf.length) :
    verifyWOLHardwareAddress buf mac
      = some (decide (∀ j : Nat, j < 16 → (buf.drop (6 * j)).take 6 = mac)) := by
  have := verifyLoop_eq buf mac 16 0 (by simp only [macLen]; omega)
  simpa [verifyWOLHardwareAddress, wolMACRepeat] using this

/-- The check the loop of `Listen` makes on the bytes after the header of a
102-byte datagram `d` sitting at the front of the receive buffer. -/
theorem verify_rest (d tl : List Byte) (mac : HardwareAddr) (hd : d.length = 102) :
    verifyWOLHardwareAddress (d.drop 6 ++ tl) mac
      = some (decide (∀ k : Nat, k < 16 → (d.drop (6 + 6 * k)).take 6 = mac)) := by
  rw [verifyWOLHardwareAddress_eq _ _ (by simp; omega)]
  congr 1
  apply decide_eq_decide.mpr
  constructor
  · intro h k hk
    rw [← block_of_append d tl k (by omega)]
    exact h k hk
  · intro h k hk
    rw [block_of_append d tl k (by omega)]
    exact h k hk

/-! ## One iteration of the receive loop on a 102-byte datagram -/

theorem slice_header (d tl : List Byte) (hd : d.length = 102) :
    slice (d ++ tl) 0 magicHeader.length = some (d.take 6) := by
  rw [slice_eq_some (by simp) (by simp [magicHeader]; omega)]
  simp only [magicHeader, List.length_cons, List.length_nil, List.drop_zero]
  rw [List.take_append_of_le_length (by omega)]

theorem slice_firstBlock (d tl : List Byte) (hd : d.length = 102) :
    slice (d ++ tl) magicHeader.length (magicHeader.length + macLen)
      = some ((d.drop 6).take 6) := by
  rw [slice_eq_some (by simp) (by simp [magicHeader, macLen]; omega)]
  simp only [magicHeader, macLen, List.length_cons, List.length_nil]
  rw [List.drop_append_of_le_length (by omega),
    List.take_append_of_le_length (by simp; omega)]

theorem sliceFrom_rest (d tl : List Byte) (hd : d.length = 102) :
    sliceFrom (d ++ tl) magicHeader.length = some (d.drop 6 ++ tl) := by
  unfold sliceFrom
  rw [slice_eq_some (by simp [magicHeader]; omega) (le_refl _)]
  simp only [magicHeader, List.length_cons, List.length_nil]
  rw [List.take_of_length_le (by simp), List.drop_append_of_le_length (by omega)]

/-- Length check: a datagram whose length is not 102 is discarded. -/
theorem listenIter_badLength (r : Repeater) (buf d : List Byte) (s : SendEnv)
    (hb : buf.length = bufLen) (hd : d.length ≠ 102) :
    r.listenIter buf ⟨.ok d, s⟩
      = .cont (connRead buf d).2
          (r.Logger.Debug "received non-WOL packet"
            [("invalid-packet-length", .int (connRead buf d).1)]) := by
  have h := connRead_fst_ne buf d hb hd
  simp only [Repeater.listenIter, wolPacketLen]
  rw [if_pos h]

/-- Header check: a 102-byte datagram whose first six bytes are not the magic
header is discarded. -/
theorem listenIter_badHeader (r : Repeater) (buf d : List Byte) (s : SendEnv)
    (hb : buf.length = bufLen) (hd : d.length = 102) (hh : d.take 6 ≠ magicHeader) :
    r.listenIter buf ⟨.ok d, s⟩
      = .cont (d ++ buf.drop 102)
          (r.Logger.Debug "received non-WOL packet" [("invalid-header", .bytes (d.take 6))]) := by
  simp only [Repeater.listenIter, connRead_wol buf d hb hd, wolPacketLen, ne_eq,
    not_true_eq_false, if_false, slice_header d _ hd]
  rw [if_pos hh]

/-- First-block check: a 102-byte datagram with the magic header whose bytes
6-11 are not the listen address is discarded; with debug logging on, it is
reported according to `verifyWOLHardwareAddress` on its own first block. -/
theorem listenIter_otherMAC (r : Repeater) (buf d : List Byte) (s : SendEnv)
    (hb : buf.length = bufLen) (hd : d.length = 102) (hh : d.take 6 = magicHeader)
    (hm : (d.drop 6).take 6 ≠ r.ListenHardwareAddr) :
    r.listenIter buf ⟨.ok d, s⟩
      = .cont (d ++ buf.drop 102)
          (if r.Logger.Enabled LevelDebug then
            (if ∀ k : Nat, k < 16 → (d.drop (6 + 6 * k)).take 6 = (d.drop 6).take 6 then
              r.Logger.Debug "received WOL packet for another MAC address"
                [("mac-address", .mac ((d.drop 6).take 6))]
            else r.Logger.Debug "received invalid WOL packet" [])
          else []) := by
  simp only [Repeater.listenIter, connRead_wol buf d hb hd, wolPacketLen, ne_eq,
    not_true_eq_false, if_false, slice_header d _ hd, hh, slice_firstBlock d _ hd,
    sliceFrom_rest d _ hd, verify_rest _ _ _ hd]
  rw [if_pos hm]
  by_cases hdbg : r.Logger.Enabled LevelDebug = true
  · rw [if_pos hdbg, if_pos hdbg]
    by_cases hall : ∀ k : Nat, k < 16 → (d.drop (6 + 6 * k)).take 6 = (d.drop 6).take 6
    · rw [if_pos hall]
      simp only [decide_eq_true hall]
    · rw [if_neg hall]
      simp only [decide_eq_false hall]
  · rw [if_neg hdbg, if_neg hdbg]

/-- Repetition check: a 102-byte datagram with the magic header whose bytes
6-11 are the listen address but in which some block differs is discarded. -/
theorem listenIter_incomplete (r : Repeater) (buf d : List Byte) (s : SendEnv)
    (hb : buf.length = bufLen) (hd : d.length = 102) (hh : d.take 6 = magicHeader)
    (hm : (d.drop 6).take 6 = r.ListenHardwareAddr)
    (hne : ¬ ∀ k : Nat, k < 16 → (d.drop (6 + 6 * k)).take 6 = r.ListenHardwareAddr) :
    r.listenIter buf ⟨.ok d, s⟩
      = .cont (d ++ buf.drop 102)
          (r.Logger.Debug "received invalid WOL packet: incomplete match" []) := by
  simp only [Repeater.listenIter, connRead_wol buf d hb hd, wolPacketLen, ne_eq,
    not_true_eq_false, if_false, slice_header d _ hd, hh, slice_firstBlock d _ hd,
    sliceFrom_rest d _ hd, verify_rest _ _ _ hd, hm]
  simp only [decide_eq_false hne]

/-- Full match: the loop logs the match, calls `sendWOL` and goes on. -/
theorem listenIter_match (r : Repeater) (buf d : List Byte) (s : SendEnv)
    (hb : buf.length = bufLen) (hd : d.length = 102) (hh : d.take 6 = magicHeader)
    (hall : ∀ k : Nat, k < 16 → (d.drop (6 + 6 * k)).take 6 = r.ListenHardwareAddr) :
    r.listenIter buf ⟨.ok d, s⟩
      = .cont (d ++ buf.drop 102)
          (r.Logger.Info "WOL packet received" [("mac-address", .mac r.ListenHardwareAddr)]
            ++ [.sendWOLCall] ++ forwardEvents r s) := by
  have hm : (d.drop 6).take 6 = r.ListenHardwareAddr := by simpa using hall 0 (by omega)
  simp only [Repeater.listenIter, connRead_wol buf d hb hd, wolPacketLen, ne_eq,
    not_true_eq_false, if_false, slice_header d _ hd, hh, slice_firstBlock d _ hd,
    sliceFrom_rest d _ hd, verify_rest _ _ _ hd, hm, forwardEvents]
  simp only [decide_eq_true hall]
  rcases hs : r.sendWOL s with ⟨_ | err, evs⟩ <;> simp

/-! ## Traces -/

theorem sendCalls_append (t u : List Event) : sendCalls (t ++ u) = sendCalls t + sendCalls u := by
  simp [sendCalls, List.count_append]

theorem written_append (t u : List Event) : written (t ++ u) = written t ++ written u := by
  induction t with
  | nil => rfl
  | cons e t ih => cases e <;> simp [written, ih]

theorem sendCalls_emit (l : Logger) (lv : Int) (m : String) (a : List (String × AttrVal)) :
    sendCalls (l.emit lv m a) = 0 := by
  unfold Logger.emit
  split <;> simp [sendCalls]

theorem written_emit (l : Logger) (lv : Int) (m : String) (a : List (String × AttrVal)) :
    written (l.emit lv m a) = [] := by
  unfold Logger.emit
  split <;> simp [written]

theorem sendCalls_forwardEvents (r : Repeater) (s : SendEnv) :
    sendCalls (forwardEvents r s) = 0 := by
  have hcount : ∀ (l : Logger) (lv : Int) (m : String) (a : List (String × AttrVal)),
      List.count Event.sendWOLCall (l.emit lv m a) = 0 := sendCalls_emit
  rcases s with ⟨_ | de, _ | we⟩ <;>
    simp [forwardEvents, Repeater.sendWOL, sendCalls, Logger.Warn, Logger.Info, hcount]

theorem written_forwardEvents_dialOk (r : Repeater) (s : SendEnv) (h : s.dial = none) :
    written (forwardEvents r s) = [genWOLPacket r.DestHardwareAddr] := by
  rcases s with ⟨_ | de, _ | we⟩ <;>
    simp_all [forwardEvents, Repeater.sendWOL, written_append, Logger.Warn, Logger.Info,
      written_emit, written]

theorem written_forwardEvents_dialErr (r : Repeater) (s : SendEnv) (h : s.dial ≠ none) :
    written (forwardEvents r s) = [] := by
  rcases s with ⟨_ | de, _ | we⟩ <;>
    simp_all [forwardEvents, Repeater.sendWOL, written_append, Logger.Warn, Logger.Info,
      written_emit, written]

theorem written_forwardEvents_mem (r : Repeater) (s : SendEnv) (p : List Byte)
    (hp : p ∈ written (forwardEvents r s)) : p = genWOLPacket r.DestHardwareAddr := by
  by_cases h : s.dial = none
  · rw [written_forwardEvents_dialOk r s h] at hp
    simpa using hp
  · rw [written_forwardEvents_dialErr r s h] at hp
    simp at hp

/-! ## `genWOLPacket` -/

theorem genLoop_eq (mac : HardwareAddr) :
    ∀ (k : Nat) (pkt : List Byte), genLoop mac pkt k = pkt ++ (List.replicate k mac).flatten := by
  intro k
  induction k with
  | zero => intro pkt; simp [genLoop]
  | succ k ih =>
    intro pkt
    simp [genLoop, ih, List.replicate_succ]

theorem genWOLPacket_eq (mac : HardwareAddr) :
    genWOLPacket mac = List.replicate 6 255 ++ (List.replicate 16 mac).flatten := by
  unfold genWOLPacket
  rw [genLoop_eq]
  rfl

theorem genWOLPacket_length (mac : HardwareAddr) :
    (genWOLPacket mac).length = 6 + 16 * mac.length := by
  rw [genWOLPacket_eq]
  simp only [List.length_append, List.length_replicate, List.length_flatten, List.map_replicate,
    List.sum_replicate, smul_eq_mul]

theorem genWOLPacket_header (mac : HardwareAddr) : (genWOLPacket mac).take 6 = magicHeader := by
  rw [genWOLPacket_eq]
  rfl

theorem flatten_replicate_block (mac : HardwareAddr) :
    ∀ (n k : Nat), k < n →
      (((List.replicate n mac).flatten).drop (mac.length * k)).take mac.length = mac := by
  intro n
  induction n with
  | zero => intro k hk; omega
  | succ n ih =>
    intro k hk
    rw [List.replicate_succ, List.flatten_cons]
    cases k with
    | zero => simp
    | succ k =>
      rw [show mac.length * (k + 1) = mac.length + mac.length * k by ring, ← List.drop_drop,
        List.drop_left]
      exact ih k (by omega)

theorem genWOLPacket_blocks (mac : HardwareAddr) (h : mac.length = 6) :
    ∀ k : Nat, k < 16 → ((genWOLPacket mac).drop (6 + 6 * k)).take 6 = mac := by
  intro k hk
  rw [genWOLPacket_eq, ← List.drop_drop]
  have h6 : (List.replicate 6 (255 : Byte)).length = 6 := List.length_replicate 6 255
  rw [show List.drop 6 (List.replicate 6 (255 : Byte) ++ (List.replicate 16 mac).flatten)
      = (List.replicate 16 mac).flatten from by
        conv_lhs => rw [← h6]
        exact List.drop_left _ _]
  have := flatten_replicate_block mac 16 k hk
  rwa [h] at this

/-- The first six bytes are the magic header exactly when each of bytes 0-5 is `0xFF`. -/
theorem take_eq_magicHeader_iff (d : List Byte) :
    d.take 6 = magicHeader ↔ ∀ i : Nat, i < 6 → d[i]? = some 255 := by
  constructor
  · intro h i hi
    rw [← List.getElem?_take_of_lt hi, h]
    interval_cases i <;> rfl
  · intro h
    apply List.ext_getElem?
    intro n
    by_cases hn : n < 6
    · rw [List.getElem?_take_of_lt hn, h n hn]
      interval_cases n <;> rfl
    · rw [List.getElem?_eq_none (by simp; omega), List.getElem?_eq_none (by simp [magicHeader]; omega)]

/-! ## Per-datagram claims -/

/-- C1: a 102-byte datagram whose bytes 0-5 are all `0xFF` and whose 16 blocks
at bytes 6-101 each equal the watch address makes one iteration of the loop of
`Listen` call `sendWOL` exactly once; every packet that call hands to
`conn.Write` is `genWOLPacket` of the destination address, it hands over
exactly that one packet when `net.DialUDP` succeeds, and that packet is six
`0xFF` bytes followed by 16 copies of the destination address. -/
theorem C1_full_match_forwards_once (r : Repeater) (buf d : List Byte) (s : SendEnv)
    (hb : buf.length = bufLen) (hd : d.length = 102)
    (hh : ∀ i : Nat, i < 6 → d[i]? = some 255)
    (hall : ∀ k : Nat, k < 16 → (d.drop (6 + 6 * k)).take 6 = r.ListenHardwareAddr) :
    ∃ buf1 evs, r.listenIter buf ⟨.ok d, s⟩ = .cont buf1 evs ∧ sendCalls evs = 1 ∧
      (∀ p ∈ written evs, p = genWOLPacket r.DestHardwareAddr) ∧
      (s.dial = none → written evs = [genWOLPacket r.DestHardwareAddr]) ∧
      genWOLPacket r.DestHardwareAddr
        = List.replicate 6 255 ++ (List.replicate 16 r.DestHardwareAddr).flatten := by
  have hh1 : d.take 6 = magicHeader := (take_eq_magicHeader_iff d).mpr hh
  refine ⟨_, _, listenIter_match r buf d s hb hd hh1 hall, ?_, ?_, ?_, genWOLPacket_eq _⟩
  · simp only [sendCalls_append, Logger.Info, sendCalls_emit, sendCalls_forwardEvents]
    rfl
  · intro p hp
    simp only [written_append, Logger.Info, written_emit, List.nil_append] at hp
    exact written_forwardEvents_mem r s p (by simpa [written] using hp)
  · intro hdial
    simp only [written_append, Logger.Info, written_emit, List.nil_append]
    simpa [written] using written_forwardEvents_dialOk r s hdial

/-- C2: a datagram whose length is not 102 is discarded: the iteration only
makes the debug log call and goes on to the next receive, without calling
`sendWOL` and without writing any packet. -/
theorem C2_wrong_length_discarded (r : Repeater) (buf d : List Byte) (s : SendEnv)
    (hb : buf.length = bufLen) (hd : d.length ≠ 102) :
    ∃ buf1 evs, r.listenIter buf ⟨.ok d, s⟩ = .cont buf1 evs ∧
      evs = r.Logger.Debug "received non-WOL packet"
        [("invalid-packet-length", .int (min d.length bufLen))] ∧
      sendCalls evs = 0 ∧ written evs = [] := by
  refine ⟨_, _, listenIter_badLength r buf d s hb hd, ?_, ?_, ?_⟩
  · simp [connRead, hb]
  · simp only [Logger.Debug, sendCalls_emit]
  · simp only [Logger.Debug, written_emit]

/-- C3: a 102-byte datagram in which one of bytes 0-5 is not `0xFF` is
rejected whatever the other bytes are: no `sendWOL` call, no packet written. -/
theorem C3_bad_header_rejected (r : Repeater) (buf d : List Byte) (s : SendEnv)
    (hb : buf.length = bufLen) (hd : d.length = 102)
    (hh : ∃ i : Nat, i < 6 ∧ d[i]? ≠ some 255) :
    ∃ buf1 evs, r.listenIter buf ⟨.ok d, s⟩ = .cont buf1 evs ∧
      evs = r.Logger.Debug "received non-WOL packet" [("invalid-header", .bytes (d.take 6))] ∧
      sendCalls evs = 0 ∧ written evs = [] := by
  have hh1 : d.take 6 ≠ magicHeader := by
    intro h
    obtain ⟨i, hi, hne⟩ := hh
    exact hne ((take_eq_magicHeader_iff d).mp h i hi)
  refine ⟨_, _, listenIter_badHeader r buf d s hb hd hh1, rfl, ?_, ?_⟩
  · simp only [Logger.Debug, sendCalls_emit]
  · simp only [Logger.Debug, written_emit]

/-- Neither branch of the mismatch diagnostics calls `sendWOL` or writes a packet. -/
theorem otherMAC_events_quiet (r : Repeater) (d : List Byte) :
    sendCalls
        (if r.Logger.Enabled LevelDebug then
          (if ∀ k : Nat, k < 16 → (d.drop (6 + 6 * k)).take 6 = (d.drop 6).take 6 then
            r.Logger.Debug "received WOL packet for another MAC address"
              [("mac-address", .mac ((d.drop 6).take 6))]
          else r.Logger.Debug "received invalid WOL packet" [])
        else []) = 0 ∧
      written
        (if r.Logger.Enabled LevelDebug then
          (if ∀ k : Nat, k < 16 → (d.drop (6 + 6 * k)).take 6 = (d.drop 6).take 6 then
            r.Logger.Debug "received WOL packet for another MAC address"
              [("mac-address", .mac ((d.drop 6).take 6))]
          else r.Logger.Debug "received invalid WOL packet" [])
        else []) = [] := by
  constructor
  · split
    · split <;> simp only [Logger.Debug, sendCalls_emit]
    · rfl
  · split
    · split <;> simp only [Logger.Debug, written_emit]
    · rfl

/-- A 102-byte datagram with the magic header in which some block differs from
the listen address is discarded without a forward. -/
theorem listenIter_mismatch (r : Repeater) (buf d : List Byte) (s : SendEnv)
    (hb : buf.length = bufLen) (hd : d.length = 102) (hh : d.take 6 = magicHeader)
    (hne : ∃ k : Nat, k < 16 ∧ (d.drop (6 + 6 * k)).take 6 ≠ r.ListenHardwareAddr) :
    ∃ evs, r.listenIter buf ⟨.ok d, s⟩ = .cont (d ++ buf.drop 102) evs ∧
      sendCalls evs = 0 ∧ written evs = [] := by
  by_cases hm : (d.drop 6).take 6 = r.ListenHardwareAddr
  · have hnall : ¬ ∀ k : Nat, k < 16 → (d.drop (6 + 6 * k)).take 6 = r.ListenHardwareAddr := by
      intro hall
      obtain ⟨k, hk, hk2⟩ := hne
      exact hk2 (hall k hk)
    refine ⟨_, listenIter_incomplete r buf d s hb hd hh hm hnall, ?_, ?_⟩
    · simp only [Logger.Debug, sendCalls_emit]
    · simp only [Logger.Debug, written_emit]
  · exact ⟨_, listenIter_otherMAC r buf d s hb hd hh hm, (otherMAC_events_quiet r d).1,
      (otherMAC_events_quiet r d).2⟩

/-- C4: for a 102-byte datagram with the `0xFF` header, (a) if bytes 6-11
differ from the watch address no forward occurs, whatever the remaining 90
bytes; (b) if bytes 6-11 match but one of the following 15 blocks differs, no
forward occurs (the datagram is logged as an incomplete match); (c) in
general, if any of the 16 blocks differs no forward occurs. -/
theorem C4_block_mismatch_no_forward (r : Repeater) (buf d : List Byte) (s : SendEnv)
    (hb : buf.length = bufLen) (hd : d.length = 102)
    (hh : ∀ i : Nat, i < 6 → d[i]? = some 255) :
    ((d.drop 6).take 6 ≠ r.ListenHardwareAddr →
      ∃ buf1 evs, r.listenIter buf ⟨.ok d, s⟩ = .cont buf1 evs ∧
        sendCalls evs = 0 ∧ written evs = []) ∧
    ((d.drop 6).take 6 = r.ListenHardwareAddr →
      (∃ k : Nat, 1 ≤ k ∧ k < 16 ∧ (d.drop (6 + 6 * k)).take 6 ≠ r.ListenHardwareAddr) →
      ∃ buf1 evs, r.listenIter buf ⟨.ok d, s⟩ = .cont buf1 evs ∧
        evs = r.Logger.Debug "received invalid WOL packet: incomplete match" [] ∧
        sendCalls evs = 0 ∧ written evs = []) ∧
    ((∃ k : Nat, k < 16 ∧ (d.drop (6 + 6 * k)).take 6 ≠ r.ListenHardwareAddr) →
      ∃ buf1 evs, r.listenIter buf ⟨.ok d, s⟩ = .cont buf1 evs ∧
        sendCalls evs = 0 ∧ written evs = []) := by
  have hh1 : d.take 6 = magicHeader := (take_eq_magicHeader_iff d).mpr hh
  refine ⟨?_, ?_, ?_⟩
  · intro hm
    obtain ⟨evs, h1, h2, h3⟩ := listenIter_mismatch r buf d s hb hd hh1 ⟨0, by omega, by simpa using hm⟩
    exact ⟨_, evs, h1, h2, h3⟩
  · intro hm ⟨k, _, hk, hk2⟩
    have hnall : ¬ ∀ k : Nat, k < 16 → (d.drop (6 + 6 * k)).take 6 = r.ListenHardwareAddr :=
      fun hall => hk2 (hall k hk)
    refine ⟨_, _, listenIter_incomplete r buf d s hb hd hh1 hm hnall, rfl, ?_, ?_⟩
    · simp only [Logger.Debug, sendCalls_emit]
    · simp only [Logger.Debug, written_emit]
  · intro hne
    obtain ⟨evs, h1, h2, h3⟩ := listenIter_mismatch r buf d s hb hd hh1 hne
    exact ⟨_, evs, h1, h2, h3⟩

theorem freshBuf_length : freshBuf.length = bufLen :=
  List.length_replicate bufLen 0

/-- C1 at watch `AA:BB:CC:DD:EE:FF`, destination `11:22:33:44:55:66` and the
datagram `FFFFFFFFFFFF` + 16 x `AABBCCDDEEFF`, on a network where the forward
succeeds: one `sendWOL` call, and the one packet written is the 102-byte
`FFFFFFFFFFFF` + 16 x `112233445566`. -/
theorem C1_full_match_forwards_once_witness :
    ∃ buf1 evs, sampleRepeater.listenIter freshBuf ⟨.ok (magicPacketFor sampleWatch), sendOk⟩
        = .cont buf1 evs ∧ sendCalls evs = 1 ∧
      written evs = [magicPacketFor sampleDest] ∧ (magicPacketFor sampleDest).length = 102 := by
  obtain ⟨buf1, evs, h1, h2, _, h4, _⟩ :=
    C1_full_match_forwards_once sampleRepeater freshBuf (magicPacketFor sampleWatch) sendOk
      freshBuf_length (by decide) (by decide) (by decide)
  exact ⟨buf1, evs, h1, h2, by rw [h4 rfl]; decide, by decide⟩

/-- C2 at a 90-byte datagram of `0xFF` bytes. -/
theorem C2_wrong_length_discarded_witness :
    (List.replicate 90 (255 : Byte)).length ≠ 102 ∧
    ∃ buf1 evs, sampleRepeater.listenIter freshBuf ⟨.ok (List.replicate 90 255), sendOk⟩
        = .cont buf1 evs ∧
      evs = sampleRepeater.Logger.Debug "received non-WOL packet"
        [("invalid-packet-length", .int (min (List.replicate 90 (255 : Byte)).length bufLen))] ∧
      sendCalls evs = 0 ∧ written evs = [] :=
  ⟨by decide,
    C2_wrong_length_discarded sampleRepeater freshBuf (List.replicate 90 255) sendOk
      freshBuf_length (by decide)⟩

/-- C3 at the magic packet for the watch address with byte 3 changed to `0x07`. -/
theorem C3_bad_header_rejected_witness :
    ((magicPacketFor sampleWatch).set 3 7)[3]? ≠ some 255 ∧
    ∃ buf1 evs,
      sampleRepeater.listenIter freshBuf ⟨.ok ((magicPacketFor sampleWatch).set 3 7), sendOk⟩
        = .cont buf1 evs ∧
      evs = sampleRepeater.Logger.Debug "received non-WOL packet"
        [("invalid-header", .bytes (((magicPacketFor sampleWatch).set 3 7).take 6))] ∧
      sendCalls evs = 0 ∧ written evs = [] :=
  ⟨by decide,
    C3_bad_header_rejected sampleRepeater freshBuf ((magicPacketFor sampleWatch).set 3 7) sendOk
      freshBuf_length (by decide) ⟨3, by decide, by decide⟩⟩

/-- C4 at the magic packet for the watch address with byte 50 (in block 7)
changed to `0x07`: the first block matches, a later one does not. -/
theorem C4_block_mismatch_no_forward_witness :
    (((magicPacketFor sampleWatch).set 50 7).drop 6).take 6 = sampleRepeater.ListenHardwareAddr ∧
    (((magicPacketFor sampleWatch).set 50 7).drop (6 + 6 * 7)).take 6
      ≠ sampleRepeater.ListenHardwareAddr ∧
    ∃ buf1 evs,
      sampleRepeater.listenIter freshBuf ⟨.ok ((magicPacketFor sampleWatch).set 50 7), sendOk⟩
        = .cont buf1 evs ∧
      evs = sampleRepeater.Logger.Debug "received invalid WOL packet: incomplete match" [] ∧
      sendCalls evs = 0 ∧ written evs = [] :=
  ⟨by decide, by decide,
    (C4_block_mismatch_no_forward sampleRepeater freshBuf ((magicPacketFor sampleWatch).set 50 7)
      sendOk freshBuf_length (by decide) (by decide)).2.1 (by decide)
      ⟨7, by decide, by decide, by decide⟩⟩

/-- C5 (round trip): the packet `genWOLPacket M` for a 6-byte address `M`,
received by a repeater whose listen address is `M`, passes the length check,
the header check, the first-block check and `verifyWOLHardwareAddress`, and
the iteration calls `sendWOL` once. -/
theorem C5_generated_packet_is_full_match (r : Repeater) (buf : List Byte) (s : SendEnv)
    (hb : buf.length = bufLen) (hM : r.ListenHardwareAddr.length = 6) :
    (connRead buf (genWOLPacket r.ListenHardwareAddr)).1 = wolPacketLen ∧
    slice (connRead buf (genWOLPacket r.ListenHardwareAddr)).2 0 magicHeader.length
      = some magicHeader ∧
    slice (connRead buf (genWOLPacket r.ListenHardwareAddr)).2 magicHeader.length
        (magicHeader.length + macLen) = some r.ListenHardwareAddr ∧
    (∃ rest,
      sliceFrom (connRead buf (genWOLPacket r.ListenHardwareAddr)).2 magicHeader.length
        = some rest ∧
      verifyWOLHardwareAddress rest r.ListenHardwareAddr = some true) ∧
    ∃ evs, r.listenIter buf ⟨.ok (genWOLPacket r.ListenHardwareAddr), s⟩
        = .cont (connRead buf (genWOLPacket r.ListenHardwareAddr)).2 evs ∧
      sendCalls evs = 1 := by
  have hd : (genWOLPacket r.ListenHardwareAddr).length = 102 := by
    rw [genWOLPacket_length, hM]
  have hh := genWOLPacket_header r.ListenHardwareAddr
  have hall := genWOLPacket_blocks r.ListenHardwareAddr hM
  have h0 : ((genWOLPacket r.ListenHardwareAddr).drop 6).take 6 = r.ListenHardwareAddr := by
    simpa using hall 0 (by omega)
  rw [connRead_wol buf _ hb hd]
  refine ⟨rfl, ?_, ?_, ⟨_, sliceFrom_rest _ _ hd, ?_⟩, _,
    listenIter_match r buf _ s hb hd hh hall, ?_⟩
  · rw [slice_header _ _ hd, hh]
  · rw [slice_firstBlock _ _ hd, h0]
  · rw [verify_rest _ _ _ hd, decide_eq_true hall]
  · simp only [sendCalls_append, Logger.Info, sendCalls_emit, sendCalls_forwardEvents]
    rfl

/-- C5 at `M = AA:BB:CC:DD:EE:FF`. -/
theorem C5_generated_packet_is_full_match_witness :
    sampleRepeater.ListenHardwareAddr.length = 6 ∧
    ∃ evs, sampleRepeater.listenIter freshBuf
        ⟨.ok (genWOLPacket sampleRepeater.ListenHardwareAddr), sendOk⟩
        = .cont (connRead freshBuf (genWOLPacket sampleRepeater.ListenHardwareAddr)).2 evs ∧
      sendCalls evs = 1 :=
  ⟨by decide,
    (C5_generated_packet_is_full_match sampleRepeater freshBuf sendOk freshBuf_length
      (by decide)).2.2.2.2⟩

/-- C9: for a 102-byte datagram with the `0xFF` header whose bytes 6-11 differ
from the watch address, with debug logging enabled, the iteration logs
"received WOL packet for another MAC address" exactly when all 16 blocks equal
the block at bytes 6-11, logs "received invalid WOL packet" exactly when they
do not, logs nothing else, and in both cases does not call `sendWOL`. -/
theorem C9_mismatch_diagnostics (r : Repeater) (buf d : List Byte) (s : SendEnv)
    (hb : buf.length = bufLen) (hd : d.length = 102)
    (hh : ∀ i : Nat, i < 6 → d[i]? = some 255)
    (hm : (d.drop 6).take 6 ≠ r.ListenHardwareAddr)
    (hdbg : r.Logger.Enabled LevelDebug = true) :
    ∃ buf1 evs, r.listenIter buf ⟨.ok d, s⟩ = .cont buf1 evs ∧
      (evs = [.log LevelDebug "received WOL packet for another MAC address"
                [("mac-address", .mac ((d.drop 6).take 6))]]
        ↔ ∀ k : Nat, k < 16 → (d.drop (6 + 6 * k)).take 6 = (d.drop 6).take 6) ∧
      (evs = [.log LevelDebug "received invalid WOL packet" []]
        ↔ ¬ ∀ k : Nat, k < 16 → (d.drop (6 + 6 * k)).take 6 = (d.drop 6).take 6) ∧
      ((∃ a, Event.log LevelDebug "received WOL packet for another MAC address" a ∈ evs)
        ↔ ∀ k : Nat, k < 16 → (d.drop (6 + 6 * k)).take 6 = (d.drop 6).take 6) ∧
      ((∃ a, Event.log LevelDebug "received invalid WOL packet" a ∈ evs)
        ↔ ¬ ∀ k : Nat, k < 16 → (d.drop (6 + 6 * k)).take 6 = (d.drop 6).take 6) ∧
      sendCalls evs = 0 ∧ written evs = [] := by
  have hh1 : d.take 6 = magicHeader := (take_eq_magicHeader_iff d).mpr hh
  refine ⟨_, _, listenIter_otherMAC r buf d s hb hd hh1 hm, ?_⟩
  have hq := otherMAC_events_quiet r d
  rw [if_pos hdbg] at hq ⊢
  have hne : "received WOL packet for another MAC address" ≠ "received invalid WOL packet" := by
    decide
  have hemit : ∀ (m : String) (a : List (String × AttrVal)),
      r.Logger.Debug m a = [.log LevelDebug m a] := by
    intro m a
    simp [Logger.Debug, Logger.emit, hdbg]
  by_cases hall : ∀ k : Nat, k < 16 → (d.drop (6 + 6 * k)).take 6 = (d.drop 6).take 6
  · rw [if_pos hall] at hq ⊢
    rw [hemit] at hq ⊢
    exact ⟨⟨fun _ => hall, fun _ => rfl⟩,
      ⟨fun h => absurd (Event.log.inj (List.cons.inj h).1).2.1 hne, fun h => absurd hall h⟩,
      ⟨fun _ => hall, fun _ => ⟨_, List.mem_singleton.mpr rfl⟩⟩,
      ⟨fun ⟨_, ha⟩ => absurd (Event.log.inj (List.mem_singleton.mp ha)).2.1 hne.symm,
        fun h => absurd hall h⟩, hq⟩
  · rw [if_neg hall] at hq ⊢
    rw [hemit] at hq ⊢
    exact ⟨⟨fun h => absurd (Event.log.inj (List.cons.inj h).1).2.1 hne.symm,
        fun h => absurd h hall⟩,
      ⟨fun _ => hall, fun _ => rfl⟩,
      ⟨fun ⟨_, ha⟩ => absurd (Event.log.inj (List.mem_singleton.mp ha)).2.1 hne,
        fun h => absurd h hall⟩,
      ⟨fun _ => hall, fun _ => ⟨_, List.mem_singleton.mpr rfl⟩⟩, hq⟩

/-- C9 at watch `AA:BB:CC:DD:EE:FF` and the datagram carrying 16 copies of
`00:00:00:00:00:01`: it is reported as a WOL packet for another address. -/
theorem C9_mismatch_diagnostics_witness :
    ∃ buf1, sampleRepeater.listenIter freshBuf
        ⟨.ok (magicPacketFor [0, 0, 0, 0, 0, 1]), sendOk⟩
      = .cont buf1 [.log LevelDebug "received WOL packet for another MAC address"
          [("mac-address", .mac [0, 0, 0, 0, 0, 1])]] := by
  obtain ⟨buf1, evs, h1, h2, _⟩ :=
    C9_mismatch_diagnostics sampleRepeater freshBuf (magicPacketFor [0, 0, 0, 0, 0, 1]) sendOk
      freshBuf_length (by decide) (by decide) (by decide) (by decide)
  exact ⟨buf1, by rw [h1, h2.mpr (by decide)]; rfl⟩

/-- C10: `genWOLPacket mac` has length `6 + 16 * len(mac)` for an address of
any length, hence length 102 exactly when the address has 6 bytes; a repeater
whose destination address has 8 bytes writes a 134-byte packet, which the
length check of the receive loop discards. -/
theorem C10_generated_length (mac : HardwareAddr) (r : Repeater) (buf : List Byte)
    (s : SendEnv) :
    (genWOLPacket mac).length = 6 + 16 * mac.length ∧
    ((genWOLPacket mac).length = wolPacketLen ↔ mac.length = 6) ∧
    (buf.length = bufLen → r.DestHardwareAddr.length = 8 →
      written (r.sendWOL ⟨none, none⟩).2 = [genWOLPacket r.DestHardwareAddr] ∧
      (genWOLPacket r.DestHardwareAddr).length = 134 ∧
      ∃ buf1 evs, r.listenIter buf ⟨.ok (genWOLPacket r.DestHardwareAddr), s⟩ = .cont buf1 evs ∧
        evs = r.Logger.Debug "received non-WOL packet" [("invalid-packet-length", .int 134)] ∧
        sendCalls evs = 0 ∧ written evs = []) := by
  refine ⟨genWOLPacket_length mac, ?_, ?_⟩
  · rw [genWOLPacket_length, wolPacketLen]
    omega
  · intro hb h8
    have hlen : (genWOLPacket r.DestHardwareAddr).length = 134 := by
      rw [genWOLPacket_length, h8]
    refine ⟨by simp [Repeater.sendWOL, written], hlen, ?_⟩
    refine ⟨_, _,
      listenIter_badLength r buf (genWOLPacket r.DestHardwareAddr) s hb (by omega), ?_, ?_, ?_⟩
    · simp [connRead, hb, hlen, bufLen]
    · simp only [Logger.Debug, sendCalls_emit]
    · simp only [Logger.Debug, written_emit]

/-- C10 at the 8-byte destination address `01:02:03:04:05:06:07:08`. -/
theorem C10_generated_length_witness :
    written
        (({ sampleRepeater with DestHardwareAddr := [1, 2, 3, 4, 5, 6, 7, 8] }).sendWOL
          ⟨none, none⟩).2
      = [genWOLPacket [1, 2, 3, 4, 5, 6, 7, 8]] ∧
    (genWOLPacket [1, 2, 3, 4, 5, 6, 7, 8]).length = 134 ∧
    ∃ buf1 evs,
      ({ sampleRepeater with DestHardwareAddr := [1, 2, 3, 4, 5, 6, 7, 8] }).listenIter freshBuf
        ⟨.ok (genWOLPacket [1, 2, 3, 4, 5, 6, 7, 8]), sendOk⟩ = .cont buf1 evs ∧
      evs = sampleRepeater.Logger.Debug "received non-WOL packet"
        [("invalid-packet-length", .int 134)] ∧
      sendCalls evs = 0 ∧ written evs = [] :=
  (C10_generated_length [1, 2, 3, 4, 5, 6, 7, 8]
    { sampleRepeater with DestHardwareAddr := [1, 2, 3, 4, 5, 6, 7, 8] } freshBuf sendOk).2.2
    freshBuf_length (by decide)

/-! ## The receive loop -/

theorem wolBuf_length (buf d : List Byte) (hb : buf.length = bufLen) (hd : d.length = 102) :
    (d ++ buf.drop 102).length = bufLen := by
  simp only [List.length_append, List.length_drop, hb, hd, bufLen]

/-- On a successful receive the iteration neither returns nor panics, and the
buffer keeps its length. -/
theorem listenIter_ok (r : Repeater) (buf d : List Byte) (s : SendEnv)
    (hb : buf.length = bufLen) :
    ∃ buf1 evs, r.listenIter buf ⟨.ok d, s⟩ = .cont buf1 evs ∧ buf1.length = bufLen := by
  by_cases hd : d.length = 102
  · have hl := wolBuf_length buf d hb hd
    by_cases hh : d.take 6 = magicHeader
    · by_cases hall : ∀ k : Nat, k < 16 → (d.drop (6 + 6 * k)).take 6 = r.ListenHardwareAddr
      · exact ⟨_, _, listenIter_match r buf d s hb hd hh hall, hl⟩
      · have hne : ∃ k : Nat, k < 16 ∧ (d.drop (6 + 6 * k)).take 6 ≠ r.ListenHardwareAddr := by
          by_contra hcon
          exact hall (fun k hk => by_contra (fun h => hcon ⟨k, hk, h⟩))
        obtain ⟨evs, h1, _⟩ := listenIter_mismatch r buf d s hb hd hh hne
        exact ⟨_, evs, h1, hl⟩
    · exact ⟨_, _, listenIter_badHeader r buf d s hb hd hh, hl⟩
  · exact ⟨_, _, listenIter_badLength r buf d s hb hd, by rw [connRead_length, hb]⟩

theorem listenLoop_cons_cont (r : Repeater) (buf buf1 : List Byte) (env : IterEnv)
    (evs : List Event) (rest : List IterEnv) (h : r.listenIter buf env = .cont buf1 evs) :
    r.listenLoop buf (env :: rest) = (r.listenLoop buf1 rest).prepend evs := by
  simp only [Repeater.listenLoop, h]

/-- While every receive succeeds the loop keeps running. -/
theorem listenLoop_running (r : Repeater) (envs : List IterEnv) :
    ∀ buf : List Byte, buf.length = bufLen → (∀ x ∈ envs, ∃ d, x.read = .ok d) →
      ∃ buf1 t, r.listenLoop buf envs = .running buf1 t ∧ buf1.length = bufLen := by
  induction envs with
  | nil => intro buf hb _; exact ⟨buf, [], rfl, hb⟩
  | cons env rest ih =>
    intro buf hb hok
    obtain ⟨d, hd⟩ := hok env (List.mem_cons_self _ _)
    obtain ⟨buf1, evs, h1, hl⟩ := listenIter_ok r buf d env.send hb
    have henv : env = ⟨.ok d, env.send⟩ := by
      cases env
      simp_all
    rw [← henv] at h1
    obtain ⟨buf2, t, h2, hl2⟩ := ih buf1 hl (fun x hx => hok x (List.mem_cons_of_mem _ hx))
    exact ⟨buf2, evs ++ t, by rw [listenLoop_cons_cont r buf buf1 env evs rest h1, h2]; rfl, hl2⟩

/-- The loop returns at the first failing receive, with that error wrapped. -/
theorem listenLoop_returns (r : Repeater) (pre : List IterEnv) (e0 : GoError) (s : SendEnv)
    (post : List IterEnv) :
    ∀ buf : List Byte, buf.length = bufLen → (∀ x ∈ pre, ∃ d, x.read = .ok d) →
      ∃ t, r.listenLoop buf (pre ++ ⟨.error e0, s⟩ :: post)
        = .returned (.wrap "could not read udp packet: " e0) t := by
  induction pre with
  | nil => intro buf _ _; exact ⟨_, rfl⟩
  | cons env rest ih =>
    intro buf hb hok
    obtain ⟨d, hd⟩ := hok env (List.mem_cons_self _ _)
    obtain ⟨buf1, evs, h1, hl⟩ := listenIter_ok r buf d env.send hb
    have henv : env = ⟨.ok d, env.send⟩ := by
      cases env
      simp_all
    rw [← henv] at h1
    obtain ⟨t, h2⟩ := ih buf1 hl (fun x hx => hok x (List.mem_cons_of_mem _ hx))
    refine ⟨evs ++ t, ?_⟩
    rw [List.cons_append, listenLoop_cons_cont r buf buf1 env evs _ h1, h2]
    rfl

/-- With the listening socket open, `Listen` announces itself and enters the loop
on a fresh buffer. -/
theorem Listen_open (r : Repeater) (envs : List IterEnv) :
    r.Listen none envs
      = (r.listenLoop freshBuf envs).prepend
          (r.Logger.Info "starting listener"
            [("listen-addr", .ip r.ListenAddr), ("listen-port", .int r.ListenPort),
             ("listen-mac", .mac r.ListenHardwareAddr)]) :=
  rfl

/-- C7: (a) when `sendWOL` returns an error for a matched datagram the
iteration still calls it once, and the loop goes on with the next receive;
(b) with the listening socket open, as long as every receive succeeds `Listen`
has not returned, whatever the forwards did; (c) at the first receive that
fails `Listen` returns, and the error wraps that receive error. -/
theorem C7_forward_failure_not_fatal (r : Repeater) :
    (∀ (buf d : List Byte) (s : SendEnv) (err : GoError) (rest : List IterEnv),
      buf.length = bufLen → d.length = 102 → (∀ i : Nat, i < 6 → d[i]? = some 255) →
      (∀ k : Nat, k < 16 → (d.drop (6 + 6 * k)).take 6 = r.ListenHardwareAddr) →
      (r.sendWOL s).1 = some err →
      ∃ buf1 evs, r.listenIter buf ⟨.ok d, s⟩ = .cont buf1 evs ∧ sendCalls evs = 1 ∧
        r.listenLoop buf (⟨.ok d, s⟩ :: rest) = (r.listenLoop buf1 rest).prepend evs) ∧
    (∀ envs : List IterEnv, (∀ x ∈ envs, ∃ d, x.read = .ok d) →
      ∃ buf1 t, r.Listen none envs = .running buf1 t) ∧
    (∀ (pre : List IterEnv) (e0 : GoError) (s : SendEnv) (post : List IterEnv),
      (∀ x ∈ pre, ∃ d, x.read = .ok d) →
      ∃ t, r.Listen none (pre ++ ⟨.error e0, s⟩ :: post)
        = .returned (.wrap "could not read udp packet: " e0) t) := by
  refine ⟨?_, ?_, ?_⟩
  · intro buf d s err rest hb hd hh hall _
    have hh1 : d.take 6 = magicHeader := (take_eq_magicHeader_iff d).mpr hh
    have h1 := listenIter_match r buf d s hb hd hh1 hall
    refine ⟨_, _, h1, ?_, listenLoop_cons_cont r buf _ _ _ rest h1⟩
    simp only [sendCalls_append, Logger.Info, sendCalls_emit, sendCalls_forwardEvents]
    rfl
  · intro envs hok
    obtain ⟨buf1, t, h, _⟩ := listenLoop_running r envs freshBuf freshBuf_length hok
    rw [Listen_open, h]
    exact ⟨buf1, _, rfl⟩
  · intro pre e0 s post hok
    obtain ⟨t, h⟩ := listenLoop_returns r pre e0 s post freshBuf freshBuf_length hok
    rw [Listen_open, h]
    exact ⟨_, rfl⟩

/-- C7 at the sample repeater: a trigger whose forward fails in `net.DialUDP`
is followed by the next receive, and a later failing receive ends `Listen`
with the wrapped receive error. -/
theorem C7_forward_failure_not_fatal_witness :
    (∃ buf1 evs,
      sampleRepeater.listenIter freshBuf
        ⟨.ok (magicPacketFor sampleWatch), ⟨some (.base "network is unreachable"), none⟩⟩
        = .cont buf1 evs ∧ sendCalls evs = 1 ∧
      sampleRepeater.listenLoop freshBuf
        [⟨.ok (magicPacketFor sampleWatch), ⟨some (.base "network is unreachable"), none⟩⟩,
         ⟨.ok (magicPacketFor sampleWatch), sendOk⟩]
        = (sampleRepeater.listenLoop buf1
            [⟨.ok (magicPacketFor sampleWatch), sendOk⟩]).prepend evs) ∧
    ∃ t, sampleRepeater.Listen none
        ([⟨.ok (magicPacketFor sampleWatch), ⟨some (.base "network is unreachable"), none⟩⟩]
          ++ ⟨.error (.base "use of closed network connection"), sendOk⟩ :: [])
      = .returned
          (.wrap "could not read udp packet: " (.base "use of closed network connection")) t :=
  ⟨(C7_forward_failure_not_fatal sampleRepeater).1 freshBuf (magicPacketFor sampleWatch)
      ⟨some (.base "network is unreachable"), none⟩
      (.wrap "could not open UDP conn: " (.base "network is unreachable"))
      [⟨.ok (magicPacketFor sampleWatch), sendOk⟩]
      freshBuf_length (by decide) (by decide) (by decide) rfl,
    (C7_forward_failure_not_fatal sampleRepeater).2.2 _ _ _ _
      (fun x hx => ⟨magicPacketFor sampleWatch, by rw [List.mem_singleton.mp hx]⟩)⟩

/-- The loop fed the same full-match datagram once per element of `sends`: it
is still running, `sendWOL` was called once per datagram, and one packet
`genWOLPacket` of the destination address was written for each forward whose
`net.DialUDP` succeeded. -/
theorem listenLoop_triggers (r : Repeater) (d : List Byte) (sends : List SendEnv)
    (hd : d.length = 102) (hh1 : d.take 6 = magicHeader)
    (hall : ∀ k : Nat, k < 16 → (d.drop (6 + 6 * k)).take 6 = r.ListenHardwareAddr) :
    ∀ buf : List Byte, buf.length = bufLen →
      ∃ buf1 t, r.listenLoop buf (sends.map (fun s => ⟨.ok d, s⟩)) = .running buf1 t ∧
        sendCalls t = sends.length ∧
        (∀ p ∈ written t, p = genWOLPacket r.DestHardwareAddr) ∧
        written t
          = List.replicate (sends.filter (fun s => s.dial.isNone)).length
              (genWOLPacket r.DestHardwareAddr) := by
  induction sends with
  | nil => intro buf _; exact ⟨buf, [], rfl, rfl, by simp [written], rfl⟩
  | cons s rest ih =>
    intro buf hb
    have h1 := listenIter_match r buf d s hb hd hh1 hall
    obtain ⟨buf2, t, h2, h3, h4, h5⟩ := ih (d ++ buf.drop 102) (wolBuf_length buf d hb hd)
    have hsc : sendCalls
        (r.Logger.Info "WOL packet received" [("mac-address", .mac r.ListenHardwareAddr)]
          ++ [.sendWOLCall] ++ forwardEvents r s) = 1 := by
      simp only [sendCalls_append, Logger.Info, sendCalls_emit, sendCalls_forwardEvents]
      rfl
    have hwr : written
        (r.Logger.Info "WOL packet received" [("mac-address", .mac r.ListenHardwareAddr)]
          ++ [.sendWOLCall] ++ forwardEvents r s) = written (forwardEvents r s) := by
      simp only [written_append, Logger.Info, written_emit, List.nil_append]
      rfl
    refine ⟨buf2,
      (r.Logger.Info "WOL packet received" [("mac-address", .mac r.ListenHardwareAddr)]
        ++ [.sendWOLCall] ++ forwardEvents r s) ++ t, ?_, ?_, ?_, ?_⟩
    · rw [List.map_cons, listenLoop_cons_cont r buf _ _ _ _ h1, h2]
      rfl
    · rw [sendCalls_append, hsc, h3, List.length_cons]
      omega
    · intro p hp
      rw [written_append, hwr, List.mem_append] at hp
      rcases hp with hp | hp
      · exact written_forwardEvents_mem r s p hp
      · exact h4 p hp
    · rw [written_append, hwr, h5]
      by_cases hdial : s.dial = none
      · rw [written_forwardEvents_dialOk r s hdial]
        simp [List.filter_cons, hdial, List.replicate_succ]
      · rw [written_forwardEvents_dialErr r s hdial]
        have : s.dial.isNone = false := by
          cases hs : s.dial with
          | none => exact absurd hs hdial
          | some e => rfl
        simp [List.filter_cons, this]

/-- C8 (as amended): feeding the loop the same valid trigger datagram once per
element of `sends` (the network's answers to the forwards, arbitrary) leaves
`Listen` running with exactly `sends.length` calls of `sendWOL`, whatever the
earlier forwards did; every packet built and handed to `conn.Write` is
`genWOLPacket` of the destination address, exactly one for each call whose
`net.DialUDP` succeeded and none for a call whose `net.DialUDP` failed. This
holds from any state of the receive buffer. -/
theorem C8_no_deduplication (r : Repeater) (d : List Byte) (sends : List SendEnv)
    (hd : d.length = 102) (hh : ∀ i : Nat, i < 6 → d[i]? = some 255)
    (hall : ∀ k : Nat, k < 16 → (d.drop (6 + 6 * k)).take 6 = r.ListenHardwareAddr) :
    ∀ buf : List Byte, buf.length = bufLen →
      ∃ buf1 t, r.listenLoop buf (sends.map (fun s => ⟨.ok d, s⟩)) = .running buf1 t ∧
        sendCalls t = sends.length ∧
        (∀ p ∈ written t, p = genWOLPacket r.DestHardwareAddr) ∧
        written t
          = List.replicate (sends.filter (fun s => s.dial.isNone)).length
              (genWOLPacket r.DestHardwareAddr) :=
  listenLoop_triggers r d sends hd ((take_eq_magicHeader_iff d).mpr hh) hall

/-- C8 as stated fails: three copies of the trigger for `AA:BB:CC:DD:EE:FF`
whose forwards all fail in `net.DialUDP` give three calls of `sendWOL` and no
packet built at all, so it is not the case that each call builds
`genWOLPacket` of the destination address. -/
theorem C8_each_call_builds_packet_fails :
    ∃ buf1 t,
      sampleRepeater.listenLoop freshBuf
        ([⟨some (.base "network is unreachable"), none⟩,
          ⟨some (.base "network is unreachable"), none⟩,
          ⟨some (.base "network is unreachable"), none⟩].map
          (fun s => ⟨.ok (magicPacketFor sampleWatch), s⟩)) = .running buf1 t ∧
        sendCalls t = 3 ∧ written t = [] ∧
        written t ≠ List.replicate 3 (genWOLPacket sampleRepeater.DestHardwareAddr) := by
  obtain ⟨buf1, t, h1, h2, _, h4⟩ :=
    listenLoop_triggers sampleRepeater (magicPacketFor sampleWatch)
      [⟨some (.base "network is unreachable"), none⟩,
       ⟨some (.base "network is unreachable"), none⟩,
       ⟨some (.base "network is unreachable"), none⟩]
      (by decide) (by decide) (by decide) freshBuf freshBuf_length
  have h5 : written t = [] := by rw [h4]; rfl
  exact ⟨buf1, t, h1, h2, h5, by rw [h5]; simp [List.replicate_succ]⟩

/-- C8 with three copies of the trigger for `AA:BB:CC:DD:EE:FF`, the second
forward failing in `net.DialUDP` and the third in `conn.Write`. -/
theorem C8_no_deduplication_witness :
    ∃ buf1 t,
      sampleRepeater.listenLoop freshBuf
        ([sendOk, ⟨some (.base "network is unreachable"), none⟩,
          ⟨none, some (.base "message too long")⟩].map
          (fun s => ⟨.ok (magicPacketFor sampleWatch), s⟩)) = .running buf1 t ∧
        sendCalls t = 3 ∧
        (∀ p ∈ written t, p = genWOLPacket sampleRepeater.DestHardwareAddr) ∧
        written t = List.replicate 2 (genWOLPacket sampleRepeater.DestHardwareAddr) :=
  C8_no_deduplication sampleRepeater (magicPacketFor sampleWatch)
    [sendOk, ⟨some (.base "network is unreachable"), none⟩, ⟨none, some (.base "message too long")⟩]
    (by decide) (by decide) (by decide) freshBuf freshBuf_length

/-! ## The pre-flight check of `run` -/

theorem loopbackReported_bind {α : Type} (x : Except RunError α)
    (f : α → Except RunError Repeater)
    (hf : ∀ a, loopbackReported (f a) = false)
    (hx : ∀ e, x = .error e → e.isLoopback = false) : loopbackReported (x >>= f) = false := by
  cases x with
  | error e => exact hx e rfl
  | ok a => exact hf a

/-- Whatever the command line and the library answer, `run` does not return a
loopback error: the two `*int` flag pointers it compares are never equal. -/
theorem run_not_loopback (lib : Lib) (cmd : CmdLine) :
    loopbackReported (run lib cmd) = false := by
  unfold run
  simp only [FlagVars.newInt, List.length_nil, List.nil_append, List.length_singleton,
    IntPtr.mk.injEq, zero_ne_one, and_false, if_false]
  iterate 9 refine loopbackReported_bind _ _ (fun _ => ?_) ?_
  · rfl
  all_goals
    intro e h
    simp only [throw, throwThe, MonadExceptOf.throw, pure, Except.pure] at h
    repeat' split at h
  all_goals first
    | (cases h; rfl)
    | cases h

/-- C6 (the code departs from the claim): with the command line
`-listen-mac aa:bb:cc:dd:ee:ff -dest-addr 10.0.0.1` the listen and destination
addresses are the same MAC, both port values are 9 and the listen address is
unset, and with `-listen-addr 10.0.0.1` added the listen address equals the
destination address; in both cases `run` builds the repeater and calls
`Listen` instead of returning a loopback error. For no command line at all
does `run` return a loopback error, because the check compares the two `*int`
flag pointers `listenPort == destPort`, not the values they point to. -/
theorem C6_loopback_check_never_fires :
    (∃ r, run sampleLib loopCmdAll = .ok r ∧ r.ListenHardwareAddr = r.DestHardwareAddr ∧
      r.ListenPort = r.DestPort ∧ r.ListenAddr = none) ∧
    (∃ r, run sampleLib loopCmdAddr = .ok r ∧ r.ListenHardwareAddr = r.DestHardwareAddr ∧
      r.ListenPort = r.DestPort ∧ r.ListenAddr = r.DestAddr ∧
      sampleLib.IPEqual r.ListenAddr r.DestAddr = true) ∧
    ∀ (lib : Lib) (cmd : CmdLine), loopbackReported (run lib cmd) = false :=
  ⟨⟨_, rfl, rfl, rfl, rfl⟩, ⟨_, rfl, rfl, rfl, rfl, rfl⟩, run_not_loopback⟩

end Wolrepeater
